import Mathlib

/-!
Verification development for the tap-sumologic extractor
(`tap_sumologic/streams.py`, `tap_sumologic/tap.py`,
`tap_sumologic/sumologic_sdk.py`).

Python dicts are modelled as association lists over `String` keys with
Python assignment/merge/delete semantics; the job-polling loop, the
pagination loop, the metrics path and the schema inference are translated
directly from the source.
-/

namespace TapSumoLogic

/-- JSON-like values appearing in rows, status payloads and responses. -/
inductive Value where
  | null
  | str (s : String)
  | num (n : Int)
  | boolean (b : Bool)
deriving DecidableEq, Repr

/-- A Python dict with string keys: an association list, unique keys by
construction. -/
abbrev Dict (α : Type) := List (String × α)

/-- The keys of a dict, in insertion order. -/
def keys (m : Dict α) : List String :=
  m.map Prod.fst

/-- Python dict assignment `m[k] = v`: replace the value in place if the
key is present, otherwise append the new pair at the end. -/
def dictInsert (m : Dict α) (k : String) (v : α) : Dict α :=
  match m with
  | [] => [(k, v)]
  | p :: rest => if p.1 = k then (k, v) :: rest else p :: dictInsert rest k v

/-- Python dict lookup `m[k]` (first matching entry; dicts built with
`dictInsert` have unique keys). -/
def dictLookup (m : Dict α) (k : String) : Option α :=
  match m with
  | [] => none
  | p :: rest => if p.1 = k then some p.2 else dictLookup rest k

/-- Python `del m[k]`. -/
def dictDelete (m : Dict α) (k : String) : Dict α :=
  m.filter (fun p => p.1 != k)

/-- Python `{**a, **b}`: entries of `b` override and extend `a`. -/
def dictMerge (a b : Dict α) : Dict α :=
  b.foldl (fun m p => dictInsert m p.1 p.2) a

theorem dictLookup_dictInsert_self (m : Dict α) (k : String) (v : α) :
    dictLookup (dictInsert m k v) k = some v := by
  induction m with
  | nil => simp [dictInsert, dictLookup]
  | cons p rest ih =>
    by_cases h : p.1 = k
    · simp [dictInsert, dictLookup, h]
    · simp [dictInsert, dictLookup, h, ih]

theorem dictLookup_dictInsert_other (m : Dict α) (k k2 : String) (v : α)
    (h : k2 ≠ k) : dictLookup (dictInsert m k v) k2 = dictLookup m k2 := by
  induction m with
  | nil => simp [dictInsert, dictLookup, Ne.symm h]
  | cons p rest ih =>
    by_cases hp : p.1 = k
    · simp [dictInsert, dictLookup, hp, Ne.symm h]
    · by_cases hp2 : p.1 = k2
      · simp [dictInsert, dictLookup, hp, hp2, h]
      · simp [dictInsert, dictLookup, hp, hp2, ih]

theorem mem_keys_dictInsert (m : Dict α) (k k2 : String) (v : α) :
    k2 ∈ keys (dictInsert m k v) ↔ k2 = k ∨ k2 ∈ keys m := by
  induction m with
  | nil => simp [dictInsert, keys]
  | cons p rest ih =>
    by_cases hp : p.1 = k
    · subst hp
      simp [dictInsert, keys]
    · simp only [dictInsert, keys, List.map_cons, List.mem_cons, if_neg hp] at ih ⊢
      rw [ih]
      tauto

/-- A field descriptor as reported by the probe query
(`response["fields"]` entries: `name`, `fieldType`, `keyField`). -/
structure FieldDescriptor where
  name : String
  fieldType : String
  keyField : Bool
deriving DecidableEq, Repr

/-- The resolved output schema returned by
`TapSumoLogic.get_schema_for_table` (tap.py:279-293). -/
structure OutputSchema where
  type : String
  properties : Dict (List String)
  key_properties : List String
deriving DecidableEq, Repr

/-- The `base_type` dict of tap.py:227: every field is nullable string by
default. -/
def base_type : List String := ["null", "string"]

/-- The per-field type computed by the loop of tap.py:254-266: a deep copy
of `base_type` with `integer`/`number` appended for `int`/`long`/`double`;
the `boolean` branch is commented out in the source, so any other reported
type keeps the base type. -/
def fieldSchemaType (field_type : String) : List String :=
  if field_type = "int" then base_type ++ ["integer"]
  else if field_type = "long" then base_type ++ ["integer"]
  else if field_type = "double" then base_type ++ ["number"]
  else base_type

/-- TapSumoLogic.get_schema_for_table (tap.py:210-295), as a function of
the query type and the field descriptors reported by the probe. The
records/messages branch folds over the fields building the properties dict
and the key-property list, then adds the window-bound columns; the metrics
branch returns a fixed schema; any other query type returns the empty dict
of tap.py:295. -/
def get_schema_for_table (query_type : String) (fields : List FieldDescriptor) :
    OutputSchema :=
  if query_type = "records" ∨ query_type = "messages" then
    let r := fields.foldl
      (fun acc field =>
        (dictInsert acc.1 field.name (fieldSchemaType field.fieldType),
         if field.keyField then acc.2 ++ [field.name] else acc.2))
      (([] : Dict (List String)), ([] : List String))
    let props :=
      dictInsert (dictInsert (dictInsert r.1 "start_date" base_type)
        "end_date" base_type) "time_zone" base_type
    let kp := r.2 ++ ["start_date", "end_date", "time_zone"]
    let kp :=
      if query_type = "messages" then kp ++ ["_messagetime", "_messageid"] else kp
    ⟨"object", props, kp⟩
  else if query_type = "metrics" then
    ⟨"object",
     [("metricDefinition", ["object", "null"]), ("points", ["object", "null"])],
     ["metricDefinition", "points"]⟩
  else ⟨"", [], []⟩

/-- The field map of a row (`rec["map"]` in streams.py:124). -/
abbrev RowMap := Dict Value

/-- A row of a results page: the API wraps the field map of each row in a
`map` key (streams.py:123-124). -/
structure ResultRow where
  map : RowMap
deriving DecidableEq, Repr

/-- The per-run window configuration read from `self.config` in
`SearchJobStream.get_records`. -/
structure TableRunConfig where
  start_date : String
  end_date : String
  time_zone : String
deriving DecidableEq, Repr

/-- The `custom_columns` dict of streams.py:74-81; `now_datetime` is
computed once per run and used for both timestamp columns. -/
def custom_columns (cfg : TableRunConfig) (now_datetime : String) : RowMap :=
  [("start_date", Value.str cfg.start_date),
   ("end_date", Value.str cfg.end_date),
   ("time_zone", Value.str cfg.time_zone),
   ("_SDC_EXTRACTED_AT", Value.str now_datetime),
   ("_SDC_BATCHED_AT", Value.str now_datetime),
   ("_SDC_DELETED_AT", Value.null)]

/-- The key set of `custom_columns`: the fixed metadata columns injected
into every shaped record. -/
def metadataColumnNames : List String :=
  ["start_date", "end_date", "time_zone",
   "_SDC_EXTRACTED_AT", "_SDC_BATCHED_AT", "_SDC_DELETED_AT"]

/-- Row shaping of streams.py:124: `{**rec["map"], **custom_columns}`. -/
def shapeRecord (cfg : TableRunConfig) (now_datetime : String)
    (rowMap : RowMap) : RowMap :=
  dictMerge rowMap (custom_columns cfg now_datetime)

theorem keys_custom_columns (cfg : TableRunConfig) (now : String) :
    keys (custom_columns cfg now) = metadataColumnNames := rfl

theorem shapeRecord_eq_inserts (cfg : TableRunConfig) (now : String)
    (rowMap : RowMap) :
    shapeRecord cfg now rowMap =
      dictInsert (dictInsert (dictInsert (dictInsert (dictInsert (dictInsert
        rowMap "start_date" (Value.str cfg.start_date))
        "end_date" (Value.str cfg.end_date))
        "time_zone" (Value.str cfg.time_zone))
        "_SDC_EXTRACTED_AT" (Value.str now))
        "_SDC_BATCHED_AT" (Value.str now))
        "_SDC_DELETED_AT" Value.null := rfl

theorem mem_keys_shapeRecord (cfg : TableRunConfig) (now : String)
    (rowMap : RowMap) (k : String) :
    k ∈ keys (shapeRecord cfg now rowMap) ↔
      k ∈ keys rowMap ∨ k ∈ metadataColumnNames := by
  rw [shapeRecord_eq_inserts]
  simp only [mem_keys_dictInsert, metadataColumnNames, List.mem_cons,
    List.not_mem_nil, or_false]
  tauto

/-- A search-job status payload (`GET /search/jobs/{id}`): its `state`,
whether the payload carries the `histogramBuckets` key, and the two count
fields read by the extractor. -/
structure JobStatus where
  state : String
  hasHistogramBuckets : Bool
  recordCount : Nat
  messageCount : Nat
deriving DecidableEq, Repr

/-- The `errors` object of the metrics response. -/
structure MetricsErrors where
  errors : List Value
deriving DecidableEq, Repr

/-- The `timeSeriesList` object of a metrics query result. -/
structure TimeSeriesList where
  timeSeries : List Value
deriving DecidableEq, Repr

/-- One entry of the `queryResult` array of the metrics response. -/
structure MetricsQueryResult where
  timeSeriesList : TimeSeriesList
deriving DecidableEq, Repr

/-- A metrics query response (`POST /metricsQueries`). -/
structure MetricsResponse where
  errors : MetricsErrors
  queryResult : List MetricsQueryResult
deriving DecidableEq, Repr

/-- Python exceptions the modelled code can raise. -/
inductive PyError where
  | keyError (k : String)
  | indexError
  | queryError (payload : MetricsErrors)
  | statusesExhausted
deriving DecidableEq, Repr

/-- Outcome of the full-extraction polling loop. -/
inductive PollOutcome where
  | done (final : JobStatus)
  | cancelled (final : JobStatus)
  | keyError
  | exhausted
deriving DecidableEq, Repr

/-- The polling loop of streams.py:96-104, given the current status and
the statuses the API would return on subsequent polls. Each in-loop fetch
is followed by `del status["histogramBuckets"]`, which raises `KeyError`
when the payload lacks the key; the current (pre-loop) status is only
inspected for its `state`. An empty supply models a run that would keep
polling (`exhausted` is a modelling artifact for the unbounded loop). -/
def pollLoop (status : JobStatus) (upcoming : List JobStatus) : PollOutcome :=
  if status.state = "DONE GATHERING RESULTS" then .done status
  else if status.state = "CANCELLED" then .cancelled status
  else
    match upcoming with
    | [] => .exhausted
    | s :: rest => if s.hasHistogramBuckets then pollLoop s rest else .keyError

/-- The initial fetch of streams.py:95 followed by the loop: the first
element is the pre-loop status, the rest are the in-loop fetches. -/
def pollStatuses (statuses : List JobStatus) : PollOutcome :=
  match statuses with
  | [] => .exhausted
  | s :: rest => pollLoop s rest

/-- The pagination loop of streams.py:110-129: fetch a page at offset
`count`, collect the field maps of the rows, advance by the number of rows
actually returned, stop at the reported count or on an empty page.
Returns the collected row maps, the final offset and the number of page
fetches. -/
def paginate (pages : Nat → List ResultRow) (record_count count : Nat) :
    List RowMap × Nat × Nat :=
  if h : count < record_count then
    if h2 : 0 < (pages count).length then
      ((pages count).map ResultRow.map ++
         (paginate pages record_count (count + (pages count).length)).1,
       (paginate pages record_count (count + (pages count).length)).2.1,
       (paginate pages record_count (count + (pages count).length)).2.2 + 1)
    else ((pages count).map ResultRow.map, count, 1)
  else ([], count, 0)
termination_by record_count - count
decreasing_by
  simp_wf
  omega

/-- The records/messages branch of `SearchJobStream.get_records`
(streams.py:83-129, 142-143): poll the job, then on DONE read the
`recordCount`/`messageCount` field, paginate, and shape every collected
row with the custom columns; on CANCELLED fall through with the empty
record list. The metrics branch is modelled separately by
`metricsGetRecords`. -/
def runSearchExtraction (cfg : TableRunConfig) (now : String)
    (query_type : String) (statuses : List JobStatus)
    (pages : Nat → List ResultRow) : Except PyError (List RowMap) :=
  if query_type = "messages" ∨ query_type = "records" then
    match pollStatuses statuses with
    | .keyError => .error (.keyError "histogramBuckets")
    | .exhausted => .error .statusesExhausted
    | .cancelled _ => .ok []
    | .done final =>
      let record_count :=
        if query_type = "records" then final.recordCount else final.messageCount
      .ok ((paginate pages record_count 0).1.map (shapeRecord cfg now))
  else .ok []

/-- The metrics branch of `SearchJobStream.get_records`
(streams.py:131-140): a single synchronous call, then
`response["queryResult"][0]["timeSeriesList"]["timeSeries"]` is yielded
directly; indexing `[0]` raises on an empty `queryResult` and the error
list is never consulted. -/
def metricsGetRecords (response : MetricsResponse) :
    Except PyError (List Value) :=
  match response.queryResult with
  | [] => .error .indexError
  | qr :: _ => .ok qr.timeSeriesList.timeSeries

/-- SumoLogic.get_metrics_query_fields (sumologic_sdk.py:254-277): raises
an exception carrying the `errors` payload when `errors.errors` is
non-empty, otherwise returns the time series of the first query result. -/
def get_metrics_query_fields (response : MetricsResponse) :
    Except PyError (List Value) :=
  if 0 < response.errors.errors.length then .error (.queryError response.errors)
  else
    match response.queryResult with
    | [] => .error .indexError
    | qr :: _ => .ok qr.timeSeriesList.timeSeries

/-- A value of the metrics request body (sumologic_sdk.py:135-158). -/
inductive ReqVal where
  | null
  | s (v : String)
  | i (v : Int)
deriving DecidableEq, Repr

/-- Translation of an optional string parameter into a request value. -/
def optStr : Option String → ReqVal
  | none => .null
  | some v => .s v

/-- Translation of an optional integer parameter into a request value. -/
def optInt : Option Int → ReqVal
  | none => .null
  | some v => .i v

/-- The query object `params["queries"][0]` built by
`SumoLogic.metrics_query` (sumologic_sdk.py:135-164): the dict is built
with all five keys, then each of `quantization`/`rollup`/`timeshift` is
deleted when the corresponding parameter is `None`. -/
def metricsQueryObject (query : String) (quantization : Option Int)
    (rollup : Option String) (timeshift : Option Int) : Dict ReqVal :=
  let q0 : Dict ReqVal :=
    [("rowId", ReqVal.s "A"), ("query", ReqVal.s query),
     ("quantization", optInt quantization), ("rollup", optStr rollup),
     ("timeshift", optInt timeshift)]
  let q1 := if quantization = none then dictDelete q0 "quantization" else q0
  let q2 := if rollup = none then dictDelete q1 "rollup" else q1
  if timeshift = none then dictDelete q2 "timeshift" else q2

/-- Table-level configuration consumed by `discover_streams`
(tap.py:189-206). -/
structure TableStreamConfig where
  table_name : String
  query_type : String
  primary_keys : List String
  query : String
  replication_key : String
deriving DecidableEq, Repr

/-- The fields of the `SearchJobStream` constructed by
`discover_streams`. -/
structure StreamModel where
  name : String
  query_type : String
  primary_keys : List String
  replication_key : String
  schema : OutputSchema
  query : String
deriving DecidableEq, Repr

/-- Stream construction of tap.py:189-206: the primary keys of the stream are
`stream["primary_keys"] or schema["key_properties"]` — Python `or`
falls back to the key properties of the schema exactly when the configured
list is empty. -/
def mkSearchJobStream (tc : TableStreamConfig) (schema : OutputSchema) :
    StreamModel :=
  ⟨tc.table_name, tc.query_type,
   if tc.primary_keys = [] then schema.key_properties else tc.primary_keys,
   tc.replication_key, schema, tc.query⟩

/-- Claim C5: schema-inference type mapping is total and deterministic over
reported field types: `int`/`long` give exactly null, string and integer;
`double` gives exactly null, string and number; any other reported type
(including `boolean`) gives exactly null and string, and `boolean` is
never produced. -/
theorem C5_type_mapping (ft : String) :
    (∀ s, s ∈ fieldSchemaType "int" ↔ (s = "null" ∨ s = "string" ∨ s = "integer"))
    ∧ (∀ s, s ∈ fieldSchemaType "long" ↔ (s = "null" ∨ s = "string" ∨ s = "integer"))
    ∧ (∀ s, s ∈ fieldSchemaType "double" ↔ (s = "null" ∨ s = "string" ∨ s = "number"))
    ∧ (ft ≠ "int" → ft ≠ "long" → ft ≠ "double" →
        ∀ s, s ∈ fieldSchemaType ft ↔ (s = "null" ∨ s = "string"))
    ∧ "boolean" ∉ fieldSchemaType ft := by
  refine ⟨?_, ?_, ?_, ?_, ?_⟩
  · intro s; simp [fieldSchemaType, base_type]
  · intro s; simp [fieldSchemaType, base_type]
  · intro s; simp [fieldSchemaType, base_type]
  · intro h1 h2 h3 s; simp [fieldSchemaType, base_type, h1, h2, h3]
  · simp only [fieldSchemaType, base_type]
    split_ifs <;> simp

/-- Claim C5 witness: the mapping at the concrete reported type `boolean`. -/
theorem C5_type_mapping_witness :
    ("boolean" ∈ fieldSchemaType "boolean" ↔
      ("boolean" = "null" ∨ "boolean" = "string"))
    ∧ "boolean" ∉ fieldSchemaType "boolean" := by
  have h := C5_type_mapping "boolean"
  exact ⟨h.2.2.2.1 (by decide) (by decide) (by decide) "boolean", h.2.2.2.2⟩

/-- Claim C7: each of the optional metrics parameters quantization, rollup and
timeshift appears in the built query object exactly when it is configured,
with its configured value, and a request built with none of the three
configured contains none of those keys. -/
theorem C7_optional_metrics_params (query : String) (qz : Option Int)
    (ru : Option String) (ts : Option Int) :
    dictLookup (metricsQueryObject query qz ru ts) "quantization" = qz.map ReqVal.i
    ∧ dictLookup (metricsQueryObject query qz ru ts) "rollup" = ru.map ReqVal.s
    ∧ dictLookup (metricsQueryObject query qz ru ts) "timeshift" = ts.map ReqVal.i
    ∧ "quantization" ∉ keys (metricsQueryObject query none none none)
    ∧ "rollup" ∉ keys (metricsQueryObject query none none none)
    ∧ "timeshift" ∉ keys (metricsQueryObject query none none none) := by
  rcases qz with _ | a <;> rcases ru with _ | b <;> rcases ts with _ | c <;>
    simp [metricsQueryObject, dictDelete, dictLookup, keys, optInt, optStr]

/-- Claim C8 counterexample: a table configured with additional primary key `a`
and a resolved schema whose key properties are `b` yields a stream whose
key properties are just `a` — the schema key property `b` does not
appear, so the result is not the union of the two lists. -/
theorem C8_counterexample :
    (mkSearchJobStream ⟨"t", "records", ["a"], "q", ""⟩
      ⟨"object", [], ["b"]⟩).primary_keys = ["a"]
    ∧ "b" ∉ (mkSearchJobStream ⟨"t", "records", ["a"], "q", ""⟩
      ⟨"object", [], ["b"]⟩).primary_keys
    ∧ "b" ∈ (⟨"object", [], ["b"]⟩ : OutputSchema).key_properties
    ∧ (["a"] : List String) ≠ [] := by
  refine ⟨rfl, by decide, by decide, by decide⟩

/-- Claim C8 amended: the key properties of the constructed stream are the
additional primary keys from the table configuration when that list is
non-empty, and the key-property list of the resolved schema otherwise (Python
`or` fallback, not a union). -/
theorem C8_primary_keys_fallback (tc : TableStreamConfig) (schema : OutputSchema) :
    (tc.primary_keys ≠ [] →
      (mkSearchJobStream tc schema).primary_keys = tc.primary_keys)
    ∧ (tc.primary_keys = [] →
      (mkSearchJobStream tc schema).primary_keys = schema.key_properties) := by
  constructor <;> intro h <;> simp [mkSearchJobStream, h]

/-- Claim C8 witness: both branches of the fallback at concrete inputs. -/
theorem C8_primary_keys_fallback_witness :
    (mkSearchJobStream ⟨"t", "records", ["a"], "q", ""⟩
      ⟨"object", [], ["b"]⟩).primary_keys = ["a"]
    ∧ (mkSearchJobStream ⟨"t", "records", [], "q", ""⟩
      ⟨"object", [], ["b"]⟩).primary_keys = ["b"] :=
  ⟨(C8_primary_keys_fallback ⟨"t", "records", ["a"], "q", ""⟩
      ⟨"object", [], ["b"]⟩).1 (by decide),
   (C8_primary_keys_fallback ⟨"t", "records", [], "q", ""⟩
      ⟨"object", [], ["b"]⟩).2 rfl⟩

/-- Claim C9: every shaped record is the field map of the row merged with the fixed
metadata block: the configured window bounds and time zone, extraction and
batch timestamps both equal to the single per-run timestamp (hence equal
to each other and identical across all rows of the run), a null deletion
marker, and all non-metadata keys taken unchanged from the row. -/
theorem C9_metadata_block (cfg : TableRunConfig) (now : String) (rowMap : RowMap) :
    dictLookup (shapeRecord cfg now rowMap) "start_date" = some (Value.str cfg.start_date)
    ∧ dictLookup (shapeRecord cfg now rowMap) "end_date" = some (Value.str cfg.end_date)
    ∧ dictLookup (shapeRecord cfg now rowMap) "time_zone" = some (Value.str cfg.time_zone)
    ∧ dictLookup (shapeRecord cfg now rowMap) "_SDC_EXTRACTED_AT" = some (Value.str now)
    ∧ dictLookup (shapeRecord cfg now rowMap) "_SDC_BATCHED_AT"
        = dictLookup (shapeRecord cfg now rowMap) "_SDC_EXTRACTED_AT"
    ∧ dictLookup (shapeRecord cfg now rowMap) "_SDC_DELETED_AT" = some Value.null
    ∧ (∀ k, k ∉ metadataColumnNames →
        dictLookup (shapeRecord cfg now rowMap) k = dictLookup rowMap k)
    ∧ (∀ other : RowMap,
        dictLookup (shapeRecord cfg now other) "_SDC_EXTRACTED_AT"
          = dictLookup (shapeRecord cfg now rowMap) "_SDC_EXTRACTED_AT") := by
  refine ⟨?_, ?_, ?_, ?_, ?_, ?_, ?_, ?_⟩
  · simp [shapeRecord_eq_inserts, dictLookup_dictInsert_self,
      dictLookup_dictInsert_other]
  · simp [shapeRecord_eq_inserts, dictLookup_dictInsert_self,
      dictLookup_dictInsert_other]
  · simp [shapeRecord_eq_inserts, dictLookup_dictInsert_self,
      dictLookup_dictInsert_other]
  · simp [shapeRecord_eq_inserts, dictLookup_dictInsert_self,
      dictLookup_dictInsert_other]
  · simp [shapeRecord_eq_inserts, dictLookup_dictInsert_self,
      dictLookup_dictInsert_other]
  · simp [shapeRecord_eq_inserts, dictLookup_dictInsert_self]
  · intro k hk
    simp only [metadataColumnNames, List.mem_cons, List.not_mem_nil, or_false,
      not_or] at hk
    obtain ⟨h1, h2, h3, h4, h5, h6⟩ := hk
    rw [shapeRecord_eq_inserts,
      dictLookup_dictInsert_other _ _ _ _ h6,
      dictLookup_dictInsert_other _ _ _ _ h5,
      dictLookup_dictInsert_other _ _ _ _ h4,
      dictLookup_dictInsert_other _ _ _ _ h3,
      dictLookup_dictInsert_other _ _ _ _ h2,
      dictLookup_dictInsert_other _ _ _ _ h1]
  · intro other
    simp [shapeRecord_eq_inserts, dictLookup_dictInsert_self,
      dictLookup_dictInsert_other]

/-- Claim C9 witness: the metadata block at a concrete row; the extraction
timestamp agrees across two different rows of the same run. -/
theorem C9_metadata_block_witness :
    dictLookup (shapeRecord ⟨"s", "e", "UTC"⟩ "T" [("host", Value.str "h")])
      "_SDC_DELETED_AT" = some Value.null
    ∧ dictLookup (shapeRecord ⟨"s", "e", "UTC"⟩ "T" [("host", Value.str "h")])
      "host" = some (Value.str "h")
    ∧ dictLookup (shapeRecord ⟨"s", "e", "UTC"⟩ "T" []) "_SDC_EXTRACTED_AT"
        = dictLookup (shapeRecord ⟨"s", "e", "UTC"⟩ "T" [("host", Value.str "h")])
          "_SDC_EXTRACTED_AT" := by
  have h := C9_metadata_block ⟨"s", "e", "UTC"⟩ "T" [("host", Value.str "h")]
  refine ⟨h.2.2.2.2.2.1, ?_, h.2.2.2.2.2.2.2 []⟩
  have h2 := h.2.2.2.2.2.2.1 "host" (by decide)
  rw [h2]
  decide

theorem paginate_halts (pages : Nat → List ResultRow) (rc count : Nat) :
    (rc ≤ (paginate pages rc count).2.1
      ∨ pages (paginate pages rc count).2.1 = [])
    ∧ (paginate pages rc count).2.2 ≤ (rc - count) + 1 := by
  by_cases h : count < rc
  · by_cases h2 : 0 < (pages count).length
    · have ih := paginate_halts pages rc (count + (pages count).length)
      rw [paginate, dif_pos h, dif_pos h2]
      refine ⟨ih.1, ?_⟩
      show (paginate pages rc (count + (pages count).length)).2.2 + 1
        ≤ (rc - count) + 1
      have hb := ih.2
      omega
    · rw [paginate, dif_pos h, dif_neg h2]
      dsimp only
      have hl : (pages count).length = 0 := by omega
      exact ⟨Or.inr (List.length_eq_zero.mp hl), by omega⟩
  · rw [paginate, dif_neg h]
    dsimp only
    exact ⟨Or.inl (by omega), by omega⟩
termination_by rc - count
decreasing_by
  simp_wf
  omega

/-- Claim C2: for every reported total count, the pagination loop terminates:
starting at offset 0 and advancing by the number of rows actually returned
on each call, it halts with the cumulative offset at or past the reported
count, or earlier with a fetched page of zero rows; the number of page
fetches is finite, bounded by the reported count plus one. -/
theorem C2_pagination_terminates (pages : Nat → List ResultRow)
    (record_count : Nat) :
    (record_count ≤ (paginate pages record_count 0).2.1
      ∨ pages (paginate pages record_count 0).2.1 = [])
    ∧ (paginate pages record_count 0).2.2 ≤ record_count + 1 := by
  have h := paginate_halts pages record_count 0
  exact ⟨h.1, by have hb := h.2; omega⟩

theorem pollLoop_reaches_cancelled (mids : List JobStatus) (last : JobStatus) :
    ∀ m : JobStatus,
      m.state ≠ "DONE GATHERING RESULTS" → m.state ≠ "CANCELLED" →
      (∀ s ∈ mids, (s.state ≠ "DONE GATHERING RESULTS"
          ∧ s.state ≠ "CANCELLED") ∧ s.hasHistogramBuckets = true) →
      last.hasHistogramBuckets = true → last.state = "CANCELLED" →
      pollLoop m (mids ++ [last]) = .cancelled last := by
  induction mids with
  | nil =>
    intro m hm1 hm2 _ hlh hl
    rw [pollLoop.eq_def]
    simp only [List.nil_append]
    simp [hm1, hm2, hlh]
    rw [pollLoop.eq_def]
    simp [hl]
  | cons s ms ih =>
    intro m hm1 hm2 hms hlh hl
    have hs := hms s (by simp)
    rw [pollLoop.eq_def]
    simp only [List.cons_append]
    simp [hm1, hm2, hs.2]
    exact ih s hs.1.1 hs.1.2 (fun x hx => hms x (by simp [hx])) hlh hl

theorem pollLoop_reaches_keyError (mids : List JobStatus) (bad : JobStatus)
    (tl : List JobStatus) :
    ∀ m : JobStatus,
      m.state ≠ "DONE GATHERING RESULTS" → m.state ≠ "CANCELLED" →
      (∀ s ∈ mids, (s.state ≠ "DONE GATHERING RESULTS"
          ∧ s.state ≠ "CANCELLED") ∧ s.hasHistogramBuckets = true) →
      bad.hasHistogramBuckets = false →
      pollLoop m (mids ++ bad :: tl) = .keyError := by
  induction mids with
  | nil =>
    intro m hm1 hm2 _ hbad
    rw [pollLoop.eq_def]
    simp only [List.nil_append]
    simp [hm1, hm2, hbad]
  | cons s ms ih =>
    intro m hm1 hm2 hms hbad
    have hs := hms s (by simp)
    rw [pollLoop.eq_def]
    simp only [List.cons_append]
    simp [hm1, hm2, hs.2]
    exact ih s hs.1.1 hs.1.2 (fun x hx => hms x (by simp [hx])) hbad

/-- Claim C3: a full extraction whose polled status sequence consists of
non-terminal statuses followed by a CANCELLED status (with every in-loop
payload carrying the histogram key) stops cleanly: it yields zero records
and raises no error. -/
theorem C3_cancelled_yields_nothing (cfg : TableRunConfig) (now qt : String)
    (pages : Nat → List ResultRow) (mids : List JobStatus) (last : JobStatus)
    (hqt : qt = "messages" ∨ qt = "records")
    (hmids : ∀ s ∈ mids, s.state ≠ "DONE GATHERING RESULTS"
        ∧ s.state ≠ "CANCELLED")
    (hhist : ∀ s ∈ (mids ++ [last]).tail, s.hasHistogramBuckets = true)
    (hlast : last.state = "CANCELLED") :
    runSearchExtraction cfg now qt (mids ++ [last]) pages = .ok [] := by
  have hpoll : pollStatuses (mids ++ [last]) = .cancelled last := by
    cases mids with
    | nil =>
      simp only [List.nil_append, pollStatuses]
      rw [pollLoop.eq_def]
      simp [hlast]
    | cons m ms =>
      have hm := hmids m (by simp)
      have hlh : last.hasHistogramBuckets = true := hhist last (by simp)
      simp only [List.cons_append, pollStatuses]
      exact pollLoop_reaches_cancelled ms last m hm.1 hm.2
        (fun x hx => ⟨hmids x (by simp [hx]), hhist x (by simp [hx])⟩) hlh hlast
  rcases hqt with h | h <;> subst h <;> simp [runSearchExtraction, hpoll]

/-- Claim C3 witness: the scenario GATHERING, GATHERING, CANCELLED yields zero
records without error. -/
theorem C3_cancelled_yields_nothing_witness :
    runSearchExtraction ⟨"s", "e", "UTC"⟩ "T" "messages"
      ([⟨"GATHERING RESULTS", true, 0, 0⟩, ⟨"GATHERING RESULTS", true, 0, 0⟩]
        ++ [⟨"CANCELLED", true, 0, 0⟩]) (fun _ => []) = .ok [] :=
  C3_cancelled_yields_nothing ⟨"s", "e", "UTC"⟩ "T" "messages" (fun _ => [])
    [⟨"GATHERING RESULTS", true, 0, 0⟩, ⟨"GATHERING RESULTS", true, 0, 0⟩]
    ⟨"CANCELLED", true, 0, 0⟩ (Or.inl rfl) (by decide) (by decide) rfl

theorem runSearchExtraction_initial_histogram_irrelevant
    (cfg : TableRunConfig) (now qt : String) (pages : Nat → List ResultRow)
    (s0 : JobStatus) (rest : List JobStatus) (b : Bool) :
    runSearchExtraction cfg now qt
      (⟨s0.state, b, s0.recordCount, s0.messageCount⟩ :: rest) pages
      = runSearchExtraction cfg now qt (s0 :: rest) pages := by
  by_cases hd : s0.state = "DONE GATHERING RESULTS"
  · have e1 : pollLoop ⟨s0.state, b, s0.recordCount, s0.messageCount⟩ rest
        = .done ⟨s0.state, b, s0.recordCount, s0.messageCount⟩ := by
      rw [pollLoop.eq_def]; simp [hd]
    have e2 : pollLoop s0 rest = .done s0 := by
      rw [pollLoop.eq_def]; simp [hd]
    simp [runSearchExtraction, pollStatuses, e1, e2]
  · by_cases hc : s0.state = "CANCELLED"
    · have e1 : pollLoop ⟨s0.state, b, s0.recordCount, s0.messageCount⟩ rest
          = .cancelled ⟨s0.state, b, s0.recordCount, s0.messageCount⟩ := by
        rw [pollLoop.eq_def]; simp [hd, hc]
      have e2 : pollLoop s0 rest = .cancelled s0 := by
        rw [pollLoop.eq_def]; simp [hd, hc]
      simp [runSearchExtraction, pollStatuses, e1, e2]
    · have e : pollLoop ⟨s0.state, b, s0.recordCount, s0.messageCount⟩ rest
          = pollLoop s0 rest := by
        rw [pollLoop.eq_def]
        conv_rhs => rw [pollLoop.eq_def]
        simp [hd, hc]
      simp [runSearchExtraction, pollStatuses, e]

/-- Claim C10: an in-loop status payload lacking the histogramBuckets key makes
the extraction raise a KeyError, whatever the state of that payload (terminal
included), while the initial pre-loop status payload is never required to
carry the key: the extraction result does not depend on whether the first
fetched status has it. -/
theorem C10_histogram_required (cfg : TableRunConfig) (now qt : String)
    (pages : Nat → List ResultRow) (m0 bad s0 : JobStatus)
    (ms tl rest : List JobStatus) (b : Bool)
    (hqt : qt = "messages" ∨ qt = "records")
    (hm0 : m0.state ≠ "DONE GATHERING RESULTS" ∧ m0.state ≠ "CANCELLED")
    (hms : ∀ s ∈ ms, (s.state ≠ "DONE GATHERING RESULTS"
        ∧ s.state ≠ "CANCELLED") ∧ s.hasHistogramBuckets = true)
    (hbad : bad.hasHistogramBuckets = false) :
    runSearchExtraction cfg now qt (m0 :: ms ++ bad :: tl) pages
      = .error (.keyError "histogramBuckets")
    ∧ runSearchExtraction cfg now qt
        (⟨s0.state, b, s0.recordCount, s0.messageCount⟩ :: rest) pages
        = runSearchExtraction cfg now qt (s0 :: rest) pages := by
  constructor
  · have hpoll := pollLoop_reaches_keyError ms bad tl m0 hm0.1 hm0.2 hms hbad
    rcases hqt with h | h <;> subst h <;>
      simp [runSearchExtraction, pollStatuses, hpoll]
  · exact runSearchExtraction_initial_histogram_irrelevant cfg now qt pages
      s0 rest b

/-- Claim C10 witness: an in-loop DONE status without the histogram key raises;
the initial status may lack the key without changing the result. -/
theorem C10_histogram_required_witness :
    runSearchExtraction ⟨"s", "e", "UTC"⟩ "T" "messages"
      [⟨"GATHERING RESULTS", true, 0, 0⟩,
       ⟨"DONE GATHERING RESULTS", false, 0, 0⟩] (fun _ => [])
      = .error (.keyError "histogramBuckets")
    ∧ runSearchExtraction ⟨"s", "e", "UTC"⟩ "T" "messages"
        [⟨"DONE GATHERING RESULTS", false, 0, 0⟩] (fun _ => [])
        = runSearchExtraction ⟨"s", "e", "UTC"⟩ "T" "messages"
          [⟨"DONE GATHERING RESULTS", true, 0, 0⟩] (fun _ => []) := by
  have h := C10_histogram_required ⟨"s", "e", "UTC"⟩ "T" "messages"
    (fun _ => []) ⟨"GATHERING RESULTS", true, 0, 0⟩
    ⟨"DONE GATHERING RESULTS", false, 0, 0⟩
    ⟨"DONE GATHERING RESULTS", true, 0, 0⟩ [] [] [] false
    (Or.inl rfl) (by decide) (by decide) rfl
  exact ⟨h.1, h.2⟩

theorem foldl_key_props (fields : List FieldDescriptor) :
    ∀ acc : Dict (List String) × List String,
      (fields.foldl (fun acc field =>
        (dictInsert acc.1 field.name (fieldSchemaType field.fieldType),
         if field.keyField then acc.2 ++ [field.name] else acc.2)) acc).2
      = acc.2 ++ (fields.filter (fun f => f.keyField)).map (fun f => f.name) := by
  induction fields with
  | nil => intro acc; simp
  | cons f fs ih =>
    intro acc
    simp only [List.foldl_cons, List.filter_cons]
    rw [ih]
    by_cases hk : f.keyField = true
    · simp [hk]
    · simp [hk]

theorem mem_keys_foldl_props (fields : List FieldDescriptor) :
    ∀ (acc : Dict (List String) × List String) (k : String),
      (k ∈ keys (fields.foldl (fun acc field =>
          (dictInsert acc.1 field.name (fieldSchemaType field.fieldType),
           if field.keyField then acc.2 ++ [field.name] else acc.2)) acc).1
        ↔ k ∈ keys acc.1 ∨ k ∈ fields.map (fun f => f.name)) := by
  induction fields with
  | nil => intro acc k; simp
  | cons f fs ih =>
    intro acc k
    simp only [List.foldl_cons, List.map_cons, List.mem_cons]
    rw [ih]
    dsimp only
    rw [mem_keys_dictInsert]
    tauto

theorem schema_properties_eq (qt : String) (fields : List FieldDescriptor)
    (hqt : qt = "records" ∨ qt = "messages") :
    (get_schema_for_table qt fields).properties =
      dictInsert (dictInsert (dictInsert
        (fields.foldl (fun acc field =>
          (dictInsert acc.1 field.name (fieldSchemaType field.fieldType),
           if field.keyField then acc.2 ++ [field.name] else acc.2))
          (([] : Dict (List String)), ([] : List String))).1
        "start_date" base_type) "end_date" base_type) "time_zone" base_type := by
  rcases hqt with h | h <;> subst h <;> rfl

theorem mem_keys_schema_properties (qt : String) (fields : List FieldDescriptor)
    (hqt : qt = "records" ∨ qt = "messages") (k : String) :
    k ∈ keys (get_schema_for_table qt fields).properties ↔
      k ∈ fields.map (fun f => f.name)
        ∨ k = "start_date" ∨ k = "end_date" ∨ k = "time_zone" := by
  have hf := mem_keys_foldl_props fields
    (([] : Dict (List String)), ([] : List String)) k
  rw [schema_properties_eq qt fields hqt, mem_keys_dictInsert,
    mem_keys_dictInsert, mem_keys_dictInsert, hf]
  simp only [keys, List.map_nil, List.not_mem_nil, false_or]
  tauto

/-- Claim C6: for a records- or messages-type table inferred live from probe
field descriptors, the key-property list is the key-flagged probe fields
in order, followed by start_date, end_date and time_zone, and for
messages-type tables additionally _messagetime and _messageid; the three
window-bound columns are also schema properties. -/
theorem C6_key_properties (qt : String) (fields : List FieldDescriptor)
    (hqt : qt = "records" ∨ qt = "messages") :
    (get_schema_for_table qt fields).key_properties =
      (fields.filter (fun f => f.keyField)).map (fun f => f.name)
        ++ ["start_date", "end_date", "time_zone"]
        ++ (if qt = "messages" then ["_messagetime", "_messageid"] else [])
    ∧ "start_date" ∈ keys (get_schema_for_table qt fields).properties
    ∧ "end_date" ∈ keys (get_schema_for_table qt fields).properties
    ∧ "time_zone" ∈ keys (get_schema_for_table qt fields).properties := by
  have hk := foldl_key_props fields (([] : Dict (List String)), ([] : List String))
  rcases hqt with h | h <;> subst h <;>
    refine ⟨?_, ?_, ?_, ?_⟩ <;>
      simp [get_schema_for_table, hk, mem_keys_dictInsert]

/-- Claim C6 witness: a messages probe reporting the single key field host
yields key properties host, start_date, end_date, time_zone,
_messagetime, _messageid. -/
theorem C6_key_properties_witness :
    (get_schema_for_table "messages" [⟨"host", "string", true⟩]).key_properties
      = ["host", "start_date", "end_date", "time_zone",
         "_messagetime", "_messageid"]
    ∧ "start_date" ∈ keys
        (get_schema_for_table "messages" [⟨"host", "string", true⟩]).properties := by
  have h := C6_key_properties "messages" [⟨"host", "string", true⟩] (Or.inr rfl)
  refine ⟨?_, h.2.1⟩
  rw [h.1]
  decide

/-- Claim C1 counterexample: with a messages schema inferred from a probe
reporting the field host, a successfully extracted row whose field map is
empty yields a record that lacks the schema property host — the record
does not conform to the schema as the claim states. -/
theorem C1_counterexample :
    ¬ (∀ k ∈ keys (get_schema_for_table "messages"
          [⟨"host", "string", true⟩]).properties,
        k ∈ keys (shapeRecord ⟨"s", "e", "UTC"⟩ "T" [])) := by
  decide

/-- Claim C1 amended: the keys of a yielded record are exactly the row field-map
keys together with the fixed metadata columns; consequently, for a row
whose field-map keys coincide with the probe-reported field names, the
record conforms to the resolved schema — every schema property key is
present and no key falls outside the schema properties and the metadata
columns. Rows missing probe-reported fields (as the empty-row
counterexample shows) yield non-conforming records. -/
theorem C1_conformance (cfg : TableRunConfig) (now qt : String)
    (fields : List FieldDescriptor) (rowMap : RowMap)
    (hqt : qt = "records" ∨ qt = "messages")
    (hkeys : ∀ k, k ∈ keys rowMap ↔ k ∈ fields.map (fun f => f.name)) :
    (∀ k, k ∈ keys (shapeRecord cfg now rowMap) ↔
        (k ∈ keys rowMap ∨ k ∈ metadataColumnNames))
    ∧ (∀ k ∈ keys (get_schema_for_table qt fields).properties,
        k ∈ keys (shapeRecord cfg now rowMap))
    ∧ (∀ k ∈ keys (shapeRecord cfg now rowMap),
        k ∈ keys (get_schema_for_table qt fields).properties
          ∨ k ∈ metadataColumnNames) := by
  refine ⟨fun k => mem_keys_shapeRecord cfg now rowMap k, ?_, ?_⟩
  · intro k hk
    rw [mem_keys_schema_properties qt fields hqt] at hk
    rw [mem_keys_shapeRecord]
    rcases hk with h | h | h | h
    · exact Or.inl ((hkeys k).mpr h)
    · subst h; exact Or.inr (by simp [metadataColumnNames])
    · subst h; exact Or.inr (by simp [metadataColumnNames])
    · subst h; exact Or.inr (by simp [metadataColumnNames])
  · intro k hk
    rw [mem_keys_shapeRecord] at hk
    rcases hk with h | h
    · refine Or.inl ?_
      rw [mem_keys_schema_properties qt fields hqt]
      exact Or.inl ((hkeys k).mp h)
    · exact Or.inr h

/-- Claim C1 witness: a row carrying exactly the probe field host yields a
conforming record. -/
theorem C1_conformance_witness :
    "host" ∈ keys (shapeRecord ⟨"s", "e", "UTC"⟩ "T" [("host", Value.str "h")])
    ∧ ("host" ∈ keys (get_schema_for_table "messages"
          [⟨"host", "string", true⟩]).properties
        ∨ "host" ∈ metadataColumnNames) := by
  have h := C1_conformance ⟨"s", "e", "UTC"⟩ "T" "messages"
    [⟨"host", "string", true⟩] [("host", Value.str "h")] (Or.inr rfl)
    (fun _ => Iff.rfl)
  refine ⟨h.2.1 "host" (by decide), h.2.2 "host" (h.2.1 "host" (by decide))⟩

/-- Claim C4 counterexample: a metrics response with a non-empty error list and
a well-formed query result makes the extraction path yield the time
series with no error raised, contradicting the claimed QueryError
failure. -/
theorem C4_counterexample :
    (⟨⟨[Value.str "boom"]⟩, [⟨⟨[Value.str "ts1"]⟩⟩]⟩
        : MetricsResponse).errors.errors ≠ []
    ∧ metricsGetRecords ⟨⟨[Value.str "boom"]⟩, [⟨⟨[Value.str "ts1"]⟩⟩]⟩
        = .ok [Value.str "ts1"] :=
  ⟨by decide, rfl⟩

/-- Claim C4 amended: the metrics extraction path never inspects the error
list — it yields the time-series entries of the first query result directly
(no metadata-column injection) whatever errors.errors contains; the
QueryError-on-non-empty-errors behaviour belongs to the schema-inference
probe get_metrics_query_fields, which surfaces the error payload. -/
theorem C4_metrics_paths (response : MetricsResponse)
    (qr : MetricsQueryResult) (rest : List MetricsQueryResult)
    (hqr : response.queryResult = qr :: rest) :
    metricsGetRecords response = .ok qr.timeSeriesList.timeSeries
    ∧ (response.errors.errors ≠ [] →
        get_metrics_query_fields response
          = .error (.queryError response.errors))
    ∧ (response.errors.errors = [] →
        get_metrics_query_fields response
          = .ok qr.timeSeriesList.timeSeries) := by
  refine ⟨?_, ?_, ?_⟩
  · simp [metricsGetRecords, hqr]
  · intro h
    have hp : 0 < response.errors.errors.length := List.length_pos.mpr h
    simp [get_metrics_query_fields, hp]
  · intro h
    have hp : ¬ 0 < response.errors.errors.length := by simp [h]
    simp [get_metrics_query_fields, hp, hqr]

/-- Claim C4 witness: both paths at a concrete response with a non-empty error
list. -/
theorem C4_metrics_paths_witness :
    metricsGetRecords ⟨⟨[Value.str "E"]⟩, [⟨⟨[Value.str "p"]⟩⟩]⟩
      = .ok [Value.str "p"]
    ∧ get_metrics_query_fields ⟨⟨[Value.str "E"]⟩, [⟨⟨[Value.str "p"]⟩⟩]⟩
      = .error (.queryError ⟨[Value.str "E"]⟩) := by
  have h := C4_metrics_paths ⟨⟨[Value.str "E"]⟩, [⟨⟨[Value.str "p"]⟩⟩]⟩
    ⟨⟨[Value.str "p"]⟩⟩ [] rfl
  exact ⟨h.1, h.2.1 (by decide)⟩

end TapSumoLogic
